import Mathlib

/-!
Verification of the `recorder` capture-to-disk pipeline.

This file gives a shallow embedding of the core data structures and
control flow of the recorder sources and proves (or refutes) the
stated properties of the specification against them.

Embedded components:
* `SpscByteRingBuffer` (src/SpscByteRing.h) — the lock-free
  single-producer/single-consumer byte ring, modelled sequentially at
  the linearization points of its operations.  Cursors are modelled as
  unbounded naturals; the source's `uint64_t` arithmetic agrees with
  this as long as `writePos - readPos ≤ capacity < 2^64`, which the
  invariants proved below maintain.
* `WavWriter` (src/WavWriter.cpp) — the RIFF/WAVE backend, with the
  output file modelled as a byte list and the source's
  `uint32_t` data-byte counter modelled as arithmetic mod `2^32`.
* `BuildSegmentPath` (src/SegmentNaming.cpp).
* `IsSupportedFormat` / `ValidateFormat` and the startup sequence of
  `LoopbackRecorder::Record` (src/LoopbackRecorder.cpp).
* `pushToRing`, the per-packet capture step, the capture loop and the
  writer (encode) thread loop of `LoopbackRecorder::Record`, with the
  concurrent environment (event waits, consumer progress, audio-engine
  results) supplied as explicit oracles.
* `Mp3StreamWriter` (src/Mp3Converter.cpp) with the LAME encoder kept
  opaque as an oracle encode/flush function.

Bytes are modelled as `Nat` (their numeric value; no arithmetic is ever
performed on them, so the 0..255 bound is irrelevant to every statement).
-/

namespace Recorder

/-! ## SpscByteRingBuffer (src/SpscByteRing.h) -/

/-- State of `SpscByteRingBuffer`.  `buffer` is the backing byte array,
read at indices `< capacity`; `writePos`/`readPos` are the monotone
cursors `writePos_`/`readPos_`. -/
structure SpscState where
  buffer : Nat → Nat
  capacity : Nat
  writePos : Nat
  readPos : Nat

/-- Constructor `SpscByteRingBuffer(capacityBytes)`:
`buffer_(capacityBytes ? capacityBytes : 1), capacity_(buffer_.size())`. -/
def mkRing (capacityBytes : Nat) : SpscState :=
  { buffer := fun _ => 0
    capacity := if capacityBytes = 0 then 1 else capacityBytes
    writePos := 0
    readPos := 0 }

def SpscState.Capacity (s : SpscState) : Nat := s.capacity

/-- `AvailableToWrite`: `capacity_ - (writePos - readPos)`. -/
def SpscState.AvailableToWrite (s : SpscState) : Nat :=
  s.capacity - (s.writePos - s.readPos)

/-- `AvailableToRead`: `writePos - readPos`. -/
def SpscState.AvailableToRead (s : SpscState) : Nat :=
  s.writePos - s.readPos

/-- One `memcpy(buf + dst, src + srcOff, n)` into the backing array. -/
def memcpySeg (buf : Nat → Nat) (dst : Nat) (src : List Nat) (srcOff n : Nat) :
    Nat → Nat :=
  fun p => if dst ≤ p ∧ p < dst + n then src.getD (srcOff + (p - dst)) 0 else buf p

/-- The buffer update of `Write`: the `memcpy` of `firstPart` bytes at
`offset` followed, when the write wraps, by the `memcpy` of the
remaining `secondPart` bytes at the start of the array. -/
def writeWrap (buf : Nat → Nat) (cap offset : Nat) (data : List Nat) (bytes : Nat) :
    Nat → Nat :=
  let firstPart := min bytes (cap - offset)
  let buf1 := memcpySeg buf offset data 0 firstPart
  let secondPart := bytes - firstPart
  if 0 < secondPart then memcpySeg buf1 0 data firstPart secondPart else buf1

/-- The bytes delivered by `Read`: `firstPart` bytes from `offset` and,
when the read wraps, the remaining bytes from the start of the array. -/
def readWrap (buf : Nat → Nat) (cap offset bytes : Nat) : List Nat :=
  let firstPart := min bytes (cap - offset)
  (List.range firstPart).map (fun i => buf (offset + i)) ++
    (List.range (bytes - firstPart)).map (fun i => buf i)

/-- `SpscByteRingBuffer::Write(data, bytes)`: returns the accepted byte
count and the updated state.  The two-part wrap-around copy follows the
source line by line. -/
def SpscState.Write (s : SpscState) (data : List Nat) : Nat × SpscState :=
  if data.length = 0 then (0, s)
  else
    let writable := s.AvailableToWrite
    if writable = 0 then (0, s)
    else
      let bytes := min data.length writable
      let offset := s.writePos % s.capacity
      (bytes, { s with buffer := writeWrap s.buffer s.capacity offset data bytes
                       writePos := s.writePos + bytes })

/-- `SpscByteRingBuffer::Read(dest, maxBytes)`: returns the bytes copied
out and the updated state, with the two-part wrap-around copy of the
source. -/
def SpscState.Read (s : SpscState) (maxBytes : Nat) : List Nat × SpscState :=
  if maxBytes = 0 then ([], s)
  else
    let readable := s.AvailableToRead
    if readable = 0 then ([], s)
    else
      let bytes := min maxBytes readable
      let offset := s.readPos % s.capacity
      (readWrap s.buffer s.capacity offset bytes,
        { s with readPos := s.readPos + bytes })

/-! ### Ring-buffer reasoning infrastructure -/

/-- The `n` ring bytes starting at cursor position `start`. -/
def ringSlice (buf : Nat → Nat) (cap start n : Nat) : List Nat :=
  (List.range n).map (fun i => buf ((start + i) % cap))

/-- The committed-but-unread bytes of the ring. -/
def SpscState.unread (s : SpscState) : List Nat :=
  ringSlice s.buffer s.capacity s.readPos (s.writePos - s.readPos)

/-- Structural invariant of a reachable ring state. -/
def GoodRing (s : SpscState) : Prop :=
  1 ≤ s.capacity ∧ s.readPos ≤ s.writePos ∧ s.writePos - s.readPos ≤ s.capacity

/-- One linearized ring operation: a producer `Write` or a consumer
`Read` (the SPSC contract makes every concurrent history equivalent to
one such sequence at the cursor release points). -/
inductive RingOp where
  | write (data : List Nat)
  | read (maxBytes : Nat)

/-- Run one operation, accumulating the accepted bytes (each `Write`
accepts a prefix of its input, of length its return value) and the bytes
returned by `Read`. -/
def stepOp (acc : SpscState × List Nat × List Nat) (op : RingOp) :
    SpscState × List Nat × List Nat :=
  match op with
  | .write data =>
      let r := acc.1.Write data
      (r.2, acc.2.1 ++ data.take r.1, acc.2.2)
  | .read maxBytes =>
      let r := acc.1.Read maxBytes
      (r.2, acc.2.1, acc.2.2 ++ r.1)

/-- Run a sequence of operations against a fresh ring of the given
capacity; returns (final state, accepted bytes, read bytes). -/
def runOps (cap : Nat) (ops : List RingOp) : SpscState × List Nat × List Nat :=
  ops.foldl stepOp (mkRing cap, [], [])

/-- All the bytes passed to `Write` across a sequence, accepted or not. -/
def passedBytes (ops : List RingOp) : List Nat :=
  (ops.map fun op => match op with | .write data => data | .read _ => []).flatten

def RingInv (acc : SpscState × List Nat × List Nat) : Prop :=
  GoodRing acc.1 ∧ acc.2.1 = acc.2.2 ++ acc.1.unread

/-! ## WavWriter (src/WavWriter.cpp)

The output stream is modelled as the byte list `file`; `WriteValue`
emits a `uint32_t` little-endian; the `dataBytes_` counter is a
`uint32_t`, so it accumulates mod `2^32`.  The model covers the happy
path (the stream stays open and no I/O call fails), which is the path
the claims quantify over. -/

/-- `WriteValue(stream, value)`: 4 little-endian bytes of a `uint32_t`. -/
def u32le (v : Nat) : List Nat :=
  [v % 256, v / 256 % 256, v / 65536 % 256, v / 16777216 % 256]

/-- Little-endian 32-bit field read-back at a byte offset. -/
def readU32 (f : List Nat) (off : Nat) : Nat :=
  f.getD off 0 + 256 * f.getD (off + 1) 0 + 65536 * f.getD (off + 2) 0 +
    16777216 * f.getD (off + 3) 0

def riffTag : List Nat := [82, 73, 70, 70]   -- "RIFF"
def waveTag : List Nat := [87, 65, 86, 69]   -- "WAVE"
def fmtTag : List Nat := [102, 109, 116, 32] -- "fmt "
def dataTag : List Nat := [100, 97, 116, 97] -- "data"

structure WavState where
  formatBlob : List Nat
  file : List Nat
  dataBytes : Nat
  finalized : Bool
deriving DecidableEq

/-- `WavWriter::WriteHeader`: RIFF header with placeholder sizes. -/
def wavHeaderBytes (blob : List Nat) : List Nat :=
  riffTag ++ u32le 0 ++ waveTag ++ fmtTag ++ u32le (blob.length % 2 ^ 32) ++ blob ++
    dataTag ++ u32le 0

/-- `WavWriter::WavWriter`: open/truncate the file and write the header. -/
def mkWavWriter (blob : List Nat) : WavState :=
  { formatBlob := blob, file := wavHeaderBytes blob, dataBytes := 0, finalized := false }

/-- `WavWriter::Write`: append the payload verbatim; `dataBytes_ +=
static_cast<uint32_t>(byteCount)` wraps at `2^32`. -/
def WavWrite (s : WavState) (data : List Nat) : WavState :=
  { s with file := s.file ++ data, dataBytes := (s.dataBytes + data.length) % 2 ^ 32 }

/-- `seekp(off); stream.write(v)` over an already-written region. -/
def listOverwrite (l : List Nat) (off : Nat) (v : List Nat) : List Nat :=
  l.take off ++ v ++ l.drop (off + v.length)

/-- `WavWriter::FinalizeHeader`: fix up the RIFF size at offset 4 and the
`data` chunk size at offset `24 + formatBlob.size()` (`uint32_t`
arithmetic). -/
def WavFinalizeHeader (s : WavState) : WavState :=
  let riffSize := (4 + 8 + s.formatBlob.length % 2 ^ 32 + 8 + s.dataBytes) % 2 ^ 32
  let f1 := listOverwrite s.file 4 (u32le riffSize)
  let f2 := listOverwrite f1 (24 + s.formatBlob.length) (u32le s.dataBytes)
  { s with file := f2 }

/-- `WavWriter::Close`: finalize the header once; later calls return
immediately. -/
def WavClose (s : WavState) : WavState :=
  if s.finalized then s else { WavFinalizeHeader s with finalized := true }

/-- A session on the WAV backend: construct, apply all writes, close. -/
def runWav (blob : List Nat) (writes : List (List Nat)) : WavState :=
  WavClose (writes.foldl WavWrite (mkWavWriter blob))

/-- The canonical shape of a finalized WAV file with the given `fmt `
blob and payload. -/
def wavRender (blob payload : List Nat) : List Nat :=
  riffTag ++ u32le ((4 + 8 + blob.length % 2 ^ 32 + 8 + payload.length % 2 ^ 32) % 2 ^ 32) ++
    waveTag ++ fmtTag ++ u32le (blob.length % 2 ^ 32) ++ blob ++
    dataTag ++ u32le (payload.length % 2 ^ 32) ++ payload

/-! ## BuildSegmentPath (src/SegmentNaming.cpp)

`basePath` is split into stem and extension by `std::filesystem`; this
model takes those two components directly (the directory part is carried
through unchanged by the source and is dropped here).  The
`wstringstream` insertion of a number under `setw(3)/setfill('0')`
renders the decimal digits left-padded with `'0'` to width at least 3. -/

/-- Decimal digits of `n`, least significant first (the order a
stream-insertion operator computes them); structural on a fuel bound so
the kernel can evaluate it. -/
def decimalDigitsRevAux : Nat → Nat → List Nat
  | 0, _ => []
  | fuel + 1, n => if n < 10 then [n] else n % 10 :: decimalDigitsRevAux fuel (n / 10)

def decimalDigitsRev (n : Nat) : List Nat :=
  decimalDigitsRevAux (n + 1) n

/-- Decimal digits of `n`, most significant first. -/
def decimalDigits (n : Nat) : List Nat :=
  (decimalDigitsRev n).reverse

/-- The value denoted by a decimal digit string. -/
def digitsVal (ds : List Nat) : Nat :=
  ds.foldl (fun acc d => acc * 10 + d) 0

def digitChar (d : Nat) : Char := Char.ofNat (48 + d)

/-- `std::setw(3) << std::setfill(L'0') << n`: decimal digits of `n`,
left-padded with `'0'` to width at least 3. -/
def padded3 (n : Nat) : List Nat :=
  List.replicate (3 - (decimalDigits n).length) 0 ++ decimalDigits n

/-- `BuildSegmentPath(basePath, segmentIndex)` restricted to the
filename it builds: empty stems fall back to `"segment"`, then
`stem << "_" << setw(3) << setfill('0') << (segmentIndex + 1)` and the
extension is appended when present. -/
def BuildSegmentPath (stem ext : String) (segmentIndex : Nat) : String :=
  (if stem = "" then "segment" else stem) ++ "_" ++
    String.mk ((padded3 (segmentIndex + 1)).map digitChar) ++ ext

/-- The naming function the claim describes: the zero-based index itself
appended (same padding), before the extension.  Stated from the claim's
words, for comparison with `BuildSegmentPath`. -/
def claimSegmentName (stem ext : String) (segmentIndex : Nat) : String :=
  (if stem = "" then "segment" else stem) ++ "_" ++
    String.mk ((padded3 segmentIndex).map digitChar) ++ ext

/-! ## Format validation (src/LoopbackRecorder.cpp, IsSupportedFormat /
LoopbackRecorder::ValidateFormat) and the `Record` startup sequence. -/

def WAVE_FORMAT_PCM : Nat := 1
def WAVE_FORMAT_IEEE_FLOAT : Nat := 3
def WAVE_FORMAT_EXTENSIBLE : Nat := 65534

/-- The two `KSDATAFORMAT_SUBTYPE_*` GUIDs compared against
`WAVEFORMATEXTENSIBLE::SubFormat`, identified by their leading data
(their `Data1` equals the corresponding wave-format tag). -/
def KSDATAFORMAT_SUBTYPE_PCM : Nat := 1
def KSDATAFORMAT_SUBTYPE_IEEE_FLOAT : Nat := 3

/-- The fields of `WAVEFORMATEX`/`WAVEFORMATEXTENSIBLE` that
`IsSupportedFormat` inspects.  `subFormat` is meaningful only when
`formatTag = WAVE_FORMAT_EXTENSIBLE`. -/
structure WaveFormat where
  formatTag : Nat
  bitsPerSample : Nat
  subFormat : Nat
  channels : Nat
  samplesPerSec : Nat
  blockAlign : Nat
deriving DecidableEq

/-- `IsSupportedFormat(format)`, including the null check. -/
def IsSupportedFormat : Option WaveFormat → Bool
  | none => false
  | some f =>
      if f.formatTag = WAVE_FORMAT_IEEE_FLOAT ∧ f.bitsPerSample = 32 then true
      else if f.formatTag = WAVE_FORMAT_PCM ∧ f.bitsPerSample = 16 then true
      else if f.formatTag = WAVE_FORMAT_EXTENSIBLE then
        if f.subFormat = KSDATAFORMAT_SUBTYPE_PCM ∧ f.bitsPerSample = 16 then true
        else if f.subFormat = KSDATAFORMAT_SUBTYPE_IEEE_FLOAT ∧ f.bitsPerSample = 32 then true
        else false
      else false

/-- `LoopbackRecorder::ValidateFormat`: throws unless the format is
supported. -/
def ValidateFormat (fmt : Option WaveFormat) : Except String Unit :=
  if IsSupportedFormat fmt then Except.ok () else
    Except.error "only 16-bit PCM or 32-bit float formats are supported"

/-- Externally observable startup actions of `Record`, in program
order. -/
inductive StartupEvent where
  | validatedFormat
  | initializedClient
  | createdSyncEvents
  | startedStream
  | startedStopWatcherThread
  | startedWriterThread
  | openedSegmentFile (index : Nat)
deriving DecidableEq

/-- The startup sequence of `Record` after `GetMixFormat` succeeds:
`ValidateFormat` runs first (line 151); client initialization, event
creation and `audioClient->Start` follow; the stop-watcher thread is
spawned only when a stop callback exists (line 245); the writer thread
is spawned last (line 266) and opens segment 0 (line 332). -/
def recordStartup (fmt : Option WaveFormat) (hasStopCallback : Bool) :
    Except String (List StartupEvent) :=
  match ValidateFormat fmt with
  | Except.error e => Except.error e
  | Except.ok () =>
      Except.ok ([StartupEvent.validatedFormat, StartupEvent.initializedClient,
        StartupEvent.createdSyncEvents, StartupEvent.startedStream] ++
        (if hasStopCallback then [StartupEvent.startedStopWatcherThread] else []) ++
        [StartupEvent.startedWriterThread, StartupEvent.openedSegmentFile 0])

/-- Does a startup event spawn a thread or create an output file? -/
def StartupEvent.spawnsOrOpens : StartupEvent → Bool
  | StartupEvent.startedStopWatcherThread => true
  | StartupEvent.startedWriterThread => true
  | StartupEvent.openedSegmentFile _ => true
  | _ => false

/-! ## The capture side of `Record` (src/LoopbackRecorder.cpp)

The producer loop is driven by an explicit script describing the
concurrent environment: wait results, `shouldStop`/`isPaused` polls,
audio-engine call results and the consumer's concurrent ring drains.
`HRESULT`s are modelled by their 32-bit code. -/

def AUDCLNT_E_DEVICE_INVALIDATED : Nat := 2290679812  -- 0x88890004

/-- The statistics fields of `RecorderStats`. -/
structure RecStats where
  framesCaptured : Nat
  silentFrames : Nat
  glitchCount : Nat
  watchdogTimeouts : Nat
  ringBufferWaits : Nat
  ringBufferTimeouts : Nat
  writerWaitTimeouts : Nat
  framesDropped : Nat
  deviceInvalidated : Bool
  framesWhilePaused : Nat
  segmentsWritten : Nat
deriving DecidableEq

def initStats : RecStats :=
  { framesCaptured := 0, silentFrames := 0, glitchCount := 0, watchdogTimeouts := 0
    ringBufferWaits := 0, ringBufferTimeouts := 0, writerWaitTimeouts := 0
    framesDropped := 0, deviceInvalidated := false, framesWhilePaused := 0
    segmentsWritten := 1 }

/-- Producer-side mutable state of `Record`'s capture loop. -/
structure CaptureState where
  ring : SpscState
  stats : RecStats
  framesRecorded : Nat
  dropWarningIssued : Bool
  dropWarnings : Nat

/-- The configuration fields of `RecorderConfig` the embedded loops
read (after `Record` derived `frameLimit`/targets from them). -/
structure RecConfig where
  failOnGlitch : Bool
  frameLimit : Option Nat
  segmentFrameTarget : Option Nat
  segmentByteTarget : Option Nat
  manualSegmentsEnabled : Bool
  segmentationEnabled : Bool
  chunkBytes : Nat
  flushThreshold : Nat

inductive WaitOutcome where
  | object0
  | timeout
deriving DecidableEq

/-- Environment of one blocked (`wrote == 0`) iteration of `pushToRing`:
the `fatalError` flag observed, the bytes the writer thread drains from
the ring while the producer waits, and the result of the bounded wait on
`spaceAvailableEvent`. -/
structure PushEnv where
  fatal : Bool
  consumerReads : Nat
  wait : WaitOutcome

inductive PushExit where
  | completed   -- all bytes accepted
  | timedOut    -- space-available wait timed out; the rest was dropped
  | fatalStop   -- fatalError observed
  | starved     -- environment script exhausted while blocked
deriving DecidableEq

def bumpRingWaits (st : CaptureState) : CaptureState :=
  { st with stats := { st.stats with ringBufferWaits := st.stats.ringBufferWaits + 1 } }

/-- The state update of the wait-timeout branch of `pushToRing`: count
the timeout, drop the remaining whole frames, and issue the one-shot
warning. -/
def pushTimeoutUpdate (bpf : Nat) (src : List Nat) (acceptedBytes : Nat)
    (st : CaptureState) : CaptureState :=
  let st3 := { st with stats :=
    { st.stats with ringBufferTimeouts := st.stats.ringBufferTimeouts + 1 } }
  let remaining := src.length - acceptedBytes
  let droppedFrames := remaining / bpf
  if 0 < droppedFrames then
    let st4a := { st3 with stats :=
      { st3.stats with framesDropped := st3.stats.framesDropped + droppedFrames } }
    if st4a.dropWarningIssued then st4a
    else { st4a with dropWarningIssued := true, dropWarnings := st4a.dropWarnings + 1 }
  else st3

/-- The ring drain the writer thread performs while the producer blocks
on `spaceAvailableEvent`. -/
def pushWaitDrain (e : PushEnv) (st : CaptureState) : CaptureState :=
  { st with ring := (st.ring.Read e.consumerReads).2 }

/-- The retry/drop loop of `pushToRing` (lines 483–516): returns
(keep-capturing?, accepted bytes, exit kind, state).  The loop is
structural on an explicit fuel; the caller passes
`src.length + env.length + 1`, which bounds the iteration count (every
iteration either accepts at least one byte or consumes one environment
event), so the fuel never runs out on the executions the source
performs. -/
def pushLoop (failOnGlitch : Bool) (bpf : Nat) (src : List Nat) :
    Nat → CaptureState → Nat → List PushEnv →
      Bool × Nat × PushExit × CaptureState
  | 0, st, acceptedBytes, _ => (true, acceptedBytes, PushExit.starved, st)
  | fuel + 1, st, acceptedBytes, env =>
      if acceptedBytes < src.length then
        if (st.ring.Write (src.drop acceptedBytes)).1 = 0 then
          match env with
          | [] => (true, acceptedBytes, PushExit.starved, bumpRingWaits st)
          | e :: envRest =>
              if e.fatal then
                (false, acceptedBytes, PushExit.fatalStop, bumpRingWaits st)
              else
                -- the writer thread drains the ring while we block on the event
                match e.wait with
                | WaitOutcome.object0 =>
                    pushLoop failOnGlitch bpf src fuel
                      (pushWaitDrain e (bumpRingWaits st)) acceptedBytes envRest
                | WaitOutcome.timeout =>
                    if failOnGlitch then
                      (false, acceptedBytes, PushExit.timedOut,
                        pushTimeoutUpdate bpf src acceptedBytes
                          (pushWaitDrain e (bumpRingWaits st)))
                    else
                      (true, acceptedBytes, PushExit.timedOut,
                        pushTimeoutUpdate bpf src acceptedBytes
                          (pushWaitDrain e (bumpRingWaits st)))
        else
          pushLoop failOnGlitch bpf src fuel
            { st with ring := (st.ring.Write (src.drop acceptedBytes)).2 }
            (acceptedBytes + (st.ring.Write (src.drop acceptedBytes)).1) env
      else (true, acceptedBytes, PushExit.completed, st)

/-- `pushToRing(src, bytes, acceptedBytes)`. -/
def pushToRing (failOnGlitch : Bool) (bpf : Nat) (src : List Nat)
    (env : List PushEnv) (st : CaptureState) : Bool × Nat × PushExit × CaptureState :=
  pushLoop failOnGlitch bpf src (src.length + env.length + 1) st 0 env

/-- A session-long sequence of `pushToRing` calls (one per captured
packet): fold the producer state through them. -/
def runPushes (failOnGlitch : Bool) (bpf : Nat)
    (pushes : List (List Nat × List PushEnv)) (st : CaptureState) : CaptureState :=
  pushes.foldl (fun s p => (pushToRing failOnGlitch bpf p.1 p.2 s).2.2.2) st

/-- Ghost measure: drop warnings issued so far plus the one still
permitted when the once-flag is clear. -/
def warnBudget (st : CaptureState) : Nat :=
  st.dropWarnings + (if st.dropWarningIssued then 0 else 1)

/-- One audio-engine packet as delivered by `GetBuffer`: frame count,
the `AUDCLNT_BUFFERFLAGS_*` flags inspected, and the engine bytes. -/
structure Packet where
  frames : Nat
  silent : Bool
  discontinuity : Bool
  data : List Nat
deriving DecidableEq

inductive AudioResult (α : Type) where
  | ok (value : α)
  | err (hresult : Nat)
deriving DecidableEq

/-- `handleAudioError`: flags `deviceInvalidated` exactly for
`AUDCLNT_E_DEVICE_INVALIDATED`, logs, and lets the caller stop. -/
def handleAudioError (stats : RecStats) (hresult : Nat) : RecStats :=
  if hresult = AUDCLNT_E_DEVICE_INVALIDATED then { stats with deviceInvalidated := true }
  else stats

/-- Script for one iteration of the inner packet loop: the `GetBuffer`
result, the `isPaused` poll, the push environment, and the trailing
`GetNextPacketSize` result (`ok true` ⇒ more packets pending, `ok false`
⇒ size 0). -/
structure PacketStep where
  fetch : AudioResult Packet
  paused : Bool
  pushEnv : List PushEnv

inductive SizeResult where
  | more
  | empty
  | err (hresult : Nat)
deriving DecidableEq

structure PacketScript where
  step : PacketStep
  nextSize : SizeResult

/-- Exit causes of the capture loop. -/
inductive LoopExit where
  | scriptEnd        -- script exhausted, session still running
  | fatalFlag        -- writer thread reported a fatal error
  | stopRequested
  | waitFailed
  | watchdogAbort
  | audioCallFailed  -- GetNextPacketSize / GetBuffer failed
  | glitchAbort
  | ringAbort        -- pushToRing returned false
  | frameLimitReached
deriving DecidableEq

/-- `frameLimit && framesRecorded >= *frameLimit`. -/
def frameLimitHit : Option Nat → Nat → Bool
  | some limit, n => decide (limit ≤ n)
  | none, _ => false

/-- The inner `while (packetLength > 0)` loop (lines 560–627).  Returns
`some exit` when the session must end, `none` when the packet burst is
drained. -/
def runPackets (cfg : RecConfig) (bpf : Nat) :
    List PacketScript → CaptureState → Option LoopExit × CaptureState
  | [], st => (none, st)
  | p :: rest, st =>
      match p.step.fetch with
      | AudioResult.err hr =>
          (some LoopExit.audioCallFailed, { st with stats := handleAudioError st.stats hr })
      | AudioResult.ok pkt =>
          let st1 :=
            if pkt.discontinuity then
              { st with stats := { st.stats with glitchCount := st.stats.glitchCount + 1 } }
            else st
          if pkt.discontinuity && cfg.failOnGlitch then (some LoopExit.glitchAbort, st1)
          else if p.step.paused then
            let st2 := { st1 with stats :=
              { st1.stats with framesWhilePaused := st1.stats.framesWhilePaused + pkt.frames } }
            match p.nextSize with
            | SizeResult.err hr =>
                (some LoopExit.audioCallFailed,
                  { st2 with stats := handleAudioError st2.stats hr })
            | SizeResult.empty => (none, st2)
            | SizeResult.more => runPackets cfg bpf rest st2
          else
            let bytesToWrite := pkt.frames * bpf
            let staging :=
              if pkt.silent then List.replicate bytesToWrite 0
              else pkt.data.take bytesToWrite
            let st2 :=
              if pkt.silent then
                { st1 with stats :=
                  { st1.stats with silentFrames := st1.stats.silentFrames + pkt.frames } }
              else st1
            let pr := pushToRing cfg.failOnGlitch bpf staging p.step.pushEnv st2
            if pr.1 = false then (some LoopExit.ringAbort, pr.2.2.2)
            else
              let st3 := { pr.2.2.2 with framesRecorded :=
                pr.2.2.2.framesRecorded + pr.2.1 / bpf }
              if frameLimitHit cfg.frameLimit st3.framesRecorded then
                (some LoopExit.frameLimitReached, st3)
              else
                match p.nextSize with
                | SizeResult.err hr =>
                    (some LoopExit.audioCallFailed,
                      { st3 with stats := handleAudioError st3.stats hr })
                | SizeResult.empty => (none, st3)
                | SizeResult.more => runPackets cfg bpf rest st3

inductive WaitResult where
  | object0
  | timeout
  | stopSignal
  | failed
deriving DecidableEq

/-- Script for one iteration of the outer capture loop: the flag loads
and polls at the top, the multi-wait result, the first
`GetNextPacketSize` result, and the packet burst. -/
structure IterStep where
  fatal : Bool
  shouldStop : Bool
  wait : WaitResult
  firstSize : SizeResult
  packets : List PacketScript

/-- The outer `while (!done)` capture loop (lines 518–629). -/
def runCapture (cfg : RecConfig) (bpf : Nat) :
    List IterStep → CaptureState → LoopExit × CaptureState
  | [], st => (LoopExit.scriptEnd, st)
  | it :: rest, st =>
      if it.fatal then (LoopExit.fatalFlag, st)
      else if it.shouldStop then (LoopExit.stopRequested, st)
      else
        match it.wait with
        | WaitResult.stopSignal => (LoopExit.stopRequested, st)
        | WaitResult.failed => (LoopExit.waitFailed, st)
        | WaitResult.timeout =>
            let st1 := { st with stats :=
              { st.stats with watchdogTimeouts := st.stats.watchdogTimeouts + 1 } }
            if cfg.failOnGlitch then (LoopExit.watchdogAbort, st1)
            else runCapture cfg bpf rest st1
        | WaitResult.object0 =>
            match it.firstSize with
            | SizeResult.err hr =>
                (LoopExit.audioCallFailed, { st with stats := handleAudioError st.stats hr })
            | SizeResult.empty => runCapture cfg bpf rest st
            | SizeResult.more =>
                match runPackets cfg bpf it.packets st with
                | (some exit, st') => (exit, st')
                | (none, st') => runCapture cfg bpf rest st'

/-- The tail of `Record` (lines 631–664): statistics are finalized and
returned; an exception propagates only when the writer thread failed. -/
def finishRecord (st : CaptureState) (writerFailed : Bool)
    (writerWaitTimeouts segmentsOpened : Nat) : Except String RecStats :=
  let stats := { st.stats with
    framesCaptured := st.framesRecorded
    segmentsWritten := segmentsOpened
    writerWaitTimeouts := writerWaitTimeouts }
  if writerFailed then Except.error "writer thread failed" else Except.ok stats

/-! ## The writer (encode) thread of `Record` (lines 266–414)

The loop is driven by a script giving, per iteration, the
`writerActive` flag, the bytes the producer concurrently commits to the
ring, the one-shot manual-segment poll result, and the result of the
bounded wait on `dataReadyEvent` when the ring is empty.  File-system
effects are recorded as an event trace. -/

inductive WriterEvent where
  | openSegment (index : Nat)        -- a segment writer (and its file) is created
  | closeSegment (index : Nat)       -- the previous writer is flushed and closed
  | readChunk (bytes : Nat)          -- ring.Read returned this many bytes
  | writeChunk (index bytes : Nat)   -- bytes handed to the writer of segment `index`
  | waitTimeout
deriving DecidableEq

structure WriterState where
  ring : SpscState
  currentSegmentIndex : Nat
  framesInSegment : Nat
  bytesInSegment : Nat
  bytesPendingFlush : Nat
  segmentsOpened : Nat
  writerWaitTimeouts : Nat
  trace : List WriterEvent

/-- State after `openWriterForSegment(0)` (line 332). -/
def initWriter (ring : SpscState) : WriterState :=
  { ring := ring, currentSegmentIndex := 0, framesInSegment := 0, bytesInSegment := 0
    bytesPendingFlush := 0, segmentsOpened := 1, writerWaitTimeouts := 0
    trace := [WriterEvent.openSegment 0] }

/-- `rollSegment` (lines 334–359): no-op unless segmentation is enabled;
otherwise flush+close the current writer, open the next indexed segment
and reset the per-segment counters. -/
def rollSegment (cfg : RecConfig) (st : WriterState) : WriterState :=
  if cfg.segmentationEnabled then
    { st with
      currentSegmentIndex := st.currentSegmentIndex + 1
      framesInSegment := 0
      bytesInSegment := 0
      bytesPendingFlush := 0
      segmentsOpened := st.currentSegmentIndex + 2
      trace := st.trace ++ [WriterEvent.closeSegment st.currentSegmentIndex,
        WriterEvent.openSegment (st.currentSegmentIndex + 1)] }
  else st

/-- Script for one iteration of the writer loop. -/
structure WriterIter where
  active : Bool           -- writerActive.load at the loop condition
  producerPush : List Nat -- bytes the producer commits before this iteration
  manualReq : Bool        -- requestNewSegment() poll result
  wait : WaitOutcome      -- dataReadyEvent wait result if the ring was empty

/-- The producer's concurrent commit to the ring before an iteration. -/
def writerArrive (it : WriterIter) (st : WriterState) : WriterState :=
  { st with ring := (st.ring.Write it.producerPush).2 }

/-- `if (consumeManualSegment()) rollSegment(...)` at the loop top. -/
def writerMaybeRoll (cfg : RecConfig) (it : WriterIter) (st : WriterState) : WriterState :=
  if cfg.manualSegmentsEnabled && it.manualReq then rollSegment cfg st else st

/-- A wait timeout on `dataReadyEvent` when the ring was empty. -/
def writerTimeoutUpdate (st : WriterState) : WriterState :=
  { st with writerWaitTimeouts := st.writerWaitTimeouts + 1
            trace := st.trace ++ [WriterEvent.waitTimeout] }

/-- The non-empty-read path of one writer iteration: hand the chunk to
the current segment writer, account it, flush past the threshold, then
perform the duration/size rollover check. -/
def writerConsumeChunk (cfg : RecConfig) (bpf : Nat) (st1 : WriterState) : WriterState :=
  let rd := st1.ring.Read cfg.chunkBytes
  let n := rd.1.length
  let st2 := { st1 with
    ring := rd.2
    bytesPendingFlush := st1.bytesPendingFlush + n
    bytesInSegment := st1.bytesInSegment + n
    framesInSegment := st1.framesInSegment + n / bpf
    trace := st1.trace ++ [WriterEvent.readChunk n,
      WriterEvent.writeChunk st1.currentSegmentIndex n] }
  let st3 :=
    if cfg.flushThreshold ≤ st2.bytesPendingFlush then
      { st2 with bytesPendingFlush := 0 }
    else st2
  if frameLimitHit cfg.segmentFrameTarget st3.framesInSegment ||
      frameLimitHit cfg.segmentByteTarget st3.bytesInSegment then
    rollSegment cfg st3
  else st3

/-- The writer-thread loop (lines 361–400). -/
def runWriter (cfg : RecConfig) (bpf : Nat) :
    List WriterIter → WriterState → WriterState
  | [], st => st
  | it :: rest, st =>
      if it.active || 0 < (writerArrive it st).ring.AvailableToRead then
        if ((writerMaybeRoll cfg it (writerArrive it st)).ring.Read cfg.chunkBytes).1.length
            = 0 then
          match it.wait with
          | WaitOutcome.timeout =>
              runWriter cfg bpf rest
                (writerTimeoutUpdate (writerMaybeRoll cfg it (writerArrive it st)))
          | WaitOutcome.object0 =>
              runWriter cfg bpf rest (writerMaybeRoll cfg it (writerArrive it st))
        else
          runWriter cfg bpf rest
            (writerConsumeChunk cfg bpf (writerMaybeRoll cfg it (writerArrive it st)))
      else writerArrive it st

def WriterEvent.isRead : WriterEvent → Bool
  | WriterEvent.readChunk _ => true
  | _ => false

def WriterEvent.isOpen : WriterEvent → Bool
  | WriterEvent.openSegment _ => true
  | _ => false

/-! ## Mp3StreamWriter (src/Mp3Converter.cpp, lines 448–644)

The LAME encoder is the opaque external collaborator: sample conversion
plus `lame_encode_buffer_interleaved` is the oracle `encode`, and
`lame_encode_flush` yields `flushTail`.  The carry-over (`pending_`)
buffering, the close-time padding to a whole frame, and the `finalized_`
guard are the source's logic. -/

structure Mp3Encoder where
  encode : List Nat → List Nat
  flushTail : List Nat

structure Mp3State where
  pending : List Nat
  file : List Nat
  finalized : Bool
  handleOpen : Bool
  streamOpen : Bool
deriving DecidableEq

def mkMp3Writer : Mp3State :=
  { pending := [], file := [], finalized := false, handleOpen := true, streamOpen := true }

/-- `Mp3StreamWriter::Write` (lines 523–568). -/
def Mp3Write (enc : Mp3Encoder) (bpf : Nat) (s : Mp3State) (data : List Nat) : Mp3State :=
  if s.finalized then s
  else if data.length = 0 then s
  else
    let pending1 := s.pending ++ data
    let framesAvailable := pending1.length / bpf
    if framesAvailable = 0 then { s with pending := pending1 }
    else
      let bytesToProcess := framesAvailable * bpf
      { s with
        pending := pending1.drop bytesToProcess
        file := s.file ++ enc.encode (pending1.take bytesToProcess) }

/-- `Mp3StreamWriter::Close` (lines 580–644). -/
def Mp3Close (enc : Mp3Encoder) (bpf : Nat) (s : Mp3State) : Mp3State :=
  if s.finalized then s
  else if s.streamOpen then
    let afterPending :=
      if s.pending.length ≠ 0 then
        let rem := s.pending.length % bpf
        let padded := if rem ≠ 0 then s.pending ++ List.replicate (bpf - rem) 0 else s.pending
        if 0 < padded.length / bpf then s.file ++ enc.encode padded else s.file
      else s.file
    let withTail := if s.handleOpen then afterPending ++ enc.flushTail else afterPending
    { pending := [], file := withTail, finalized := true, handleOpen := false
      streamOpen := false }
  else { s with finalized := true, handleOpen := false }

theorem goodRing_mkRing (c : Nat) : GoodRing (mkRing c) := by
  refine ⟨?_, Nat.le_refl 0, ?_⟩
  · dsimp [mkRing]
    split
    · exact Nat.le_refl 1
    · omega
  · simp [mkRing]

theorem ringSlice_mod_start (buf : Nat → Nat) (cap start n : Nat) :
    ringSlice buf cap (start % cap) n = ringSlice buf cap start n := by
  unfold ringSlice
  apply List.map_congr_left
  intro i _
  rw [Nat.mod_add_mod]

theorem ringSlice_add (buf : Nat → Nat) (cap start m n : Nat) :
    ringSlice buf cap start (m + n) =
      ringSlice buf cap start m ++ ringSlice buf cap (start + m) n := by
  unfold ringSlice
  rw [List.range_add, List.map_append, List.map_map]
  congr 1
  apply List.map_congr_left
  intro i _
  simp [Function.comp]
  ring_nf

theorem ringSlice_congr {buf buf' : Nat → Nat} {cap start n : Nat}
    (h : ∀ i < n, buf' ((start + i) % cap) = buf ((start + i) % cap)) :
    ringSlice buf' cap start n = ringSlice buf cap start n := by
  unfold ringSlice
  apply List.map_congr_left
  intro i hi
  exact h i (List.mem_range.mp hi)

theorem take_eq_range_map (l : List Nat) (b : Nat) (hb : b ≤ l.length) :
    l.take b = (List.range b).map (fun i => l.getD i 0) := by
  apply List.ext_getElem
  · simp [hb]
  · intro i h1 h2
    simp only [List.getElem_take, List.getElem_map, List.getElem_range]
    simp at h1
    rw [List.getD_eq_getElem l 0 (by omega)]

/-- Values congruent mod `cap` and both below `cap` after removing a
common summand are equal. -/
theorem eq_of_add_mod_eq {cap r j k : Nat} (hj : j < cap) (hk : k < cap)
    (h : (r + j) % cap = (r + k) % cap) : j = k := by
  have hmod : j % cap = k % cap := Nat.ModEq.add_left_cancel' r h
  rwa [Nat.mod_eq_of_lt hj, Nat.mod_eq_of_lt hk] at hmod

/-- Bytes that `writeWrap` stores land exactly where a circular write
would put them. -/
theorem writeWrap_hit (buf : Nat → Nat) (cap offset : Nat) (data : List Nat)
    (bytes : Nat) (hoff : offset < cap) (hb : bytes ≤ cap) (i : Nat) (hi : i < bytes) :
    writeWrap buf cap offset data bytes ((offset + i) % cap) = data.getD i 0 := by
  unfold writeWrap memcpySeg
  by_cases hfirst : i < min bytes (cap - offset)
  · -- first memcpy: offset + i stays below cap
    have hlt : offset + i < cap := by omega
    rw [Nat.mod_eq_of_lt hlt]
    have hsecond : bytes - min bytes (cap - offset) ≤ offset := by omega
    by_cases hpos : 0 < bytes - min bytes (cap - offset)
    · simp only [if_pos hpos]
      have hnot2 : ¬(0 ≤ offset + i ∧ offset + i < 0 + (bytes - min bytes (cap - offset))) := by
        omega
      rw [if_neg hnot2, if_pos ⟨Nat.le_add_right _ _, by omega⟩]
      simp
    · simp only [if_neg hpos]
      rw [if_pos ⟨Nat.le_add_right _ _, by omega⟩]
      simp
  · -- second memcpy: the write wrapped, firstPart = cap - offset
    have hfp : min bytes (cap - offset) = cap - offset := by omega
    have hwrap : offset + i = cap + (i - (cap - offset)) := by omega
    have hq : i - (cap - offset) < bytes - min bytes (cap - offset) := by omega
    have hqlt : i - (cap - offset) < cap := by omega
    rw [hwrap, Nat.add_mod_left, Nat.mod_eq_of_lt hqlt]
    have hpos : 0 < bytes - min bytes (cap - offset) := by omega
    rw [if_pos hpos, if_pos ⟨Nat.zero_le _, by omega⟩]
    congr 1
    omega

/-- Positions not targeted by the circular write are untouched by
`writeWrap`. -/
theorem writeWrap_miss (buf : Nat → Nat) (cap offset : Nat) (data : List Nat)
    (bytes : Nat) (hoff : offset < cap) (p : Nat) (hp : p < cap)
    (hmiss : ∀ i < bytes, p ≠ (offset + i) % cap) :
    writeWrap buf cap offset data bytes p = buf p := by
  unfold writeWrap memcpySeg
  have hnot1 : ¬(offset ≤ p ∧ p < offset + min bytes (cap - offset)) := by
    rintro ⟨h1, h2⟩
    have hi : p - offset < bytes := by omega
    refine hmiss (p - offset) hi ?_
    rw [Nat.mod_eq_of_lt (by omega)]
    omega
  by_cases hpos : 0 < bytes - min bytes (cap - offset)
  · have hfp : min bytes (cap - offset) = cap - offset := by omega
    have hnot2 : ¬(0 ≤ p ∧ p < 0 + (bytes - min bytes (cap - offset))) := by
      rintro ⟨-, h2⟩
      have hi : min bytes (cap - offset) + p < bytes := by omega
      refine hmiss (min bytes (cap - offset) + p) hi ?_
      have : offset + (min bytes (cap - offset) + p) = cap + p := by omega
      rw [this, Nat.add_mod_left, Nat.mod_eq_of_lt hp]
    rw [if_pos hpos, if_neg hnot2, if_neg hnot1]
  · rw [if_neg hpos, if_neg hnot1]

/-- `readWrap` at a reduced offset reads the circular slice. -/
theorem readWrap_eq_ringSlice (buf : Nat → Nat) (cap offset bytes : Nat)
    (hoff : offset < cap) (hb : bytes ≤ cap) :
    readWrap buf cap offset bytes = ringSlice buf cap offset bytes := by
  unfold readWrap
  have hsplit : bytes = min bytes (cap - offset) + (bytes - min bytes (cap - offset)) := by
    omega
  rw [show ringSlice buf cap offset bytes =
      ringSlice buf cap offset (min bytes (cap - offset) + (bytes - min bytes (cap - offset)))
    from by rw [← hsplit]]
  rw [ringSlice_add]
  dsimp only
  congr 1
  · unfold ringSlice
    apply List.map_congr_left
    intro i hi
    have hi' : i < min bytes (cap - offset) := List.mem_range.mp hi
    rw [Nat.mod_eq_of_lt (by omega)]
  · unfold ringSlice
    apply List.map_congr_left
    intro i hi
    have hi' : i < bytes - min bytes (cap - offset) := List.mem_range.mp hi
    have hfp : min bytes (cap - offset) = cap - offset := by omega
    have : offset + min bytes (cap - offset) + i = cap + i := by omega
    rw [this, Nat.add_mod_left, Nat.mod_eq_of_lt (by omega)]

/-- `Write` accepts `min(requested, availableToWrite)` bytes, on any
state and any input — no other outcome exists. -/
theorem write_accepted_eq (s : SpscState) (data : List Nat) :
    (s.Write data).1 = min data.length s.AvailableToWrite := by
  unfold SpscState.Write
  by_cases h0 : data.length = 0
  · simp [h0]
  · by_cases hw : s.AvailableToWrite = 0
    · simp [h0, hw]
    · simp [h0, hw]

/-- `Read` returns `min(requested, availableToRead)` bytes, on any state
and any request — no other outcome exists. -/
theorem read_length_eq (s : SpscState) (maxBytes : Nat) :
    (s.Read maxBytes).1.length = min maxBytes s.AvailableToRead := by
  unfold SpscState.Read readWrap
  by_cases h0 : maxBytes = 0
  · simp [h0]
  · by_cases hr : s.AvailableToRead = 0
    · simp [h0, hr]
    · simp [h0, hr]

/-- Full characterization of `Write` on a well-formed ring state: the
accepted bytes are appended to the unread region and nothing else
changes. -/
theorem write_spec (s : SpscState) (data : List Nat) (hs : GoodRing s) :
    (s.Write data).2.capacity = s.capacity ∧
    (s.Write data).2.readPos = s.readPos ∧
    (s.Write data).2.writePos = s.writePos + min data.length s.AvailableToWrite ∧
    GoodRing (s.Write data).2 ∧
    (s.Write data).2.unread = s.unread ++ data.take (min data.length s.AvailableToWrite) := by
  obtain ⟨hc, hrw, hd⟩ := hs
  by_cases h0 : data.length = 0
  · have hdata : data = [] := List.eq_nil_of_length_eq_zero h0
    subst hdata
    simp [SpscState.Write, GoodRing, hc, hrw, hd]
  by_cases hw : s.AvailableToWrite = 0
  · simp [SpscState.Write, h0, hw, GoodRing, hc, hrw, hd]
  -- main branch
  have hstep : s.Write data =
      (min data.length s.AvailableToWrite,
        { s with buffer := writeWrap s.buffer s.capacity (s.writePos % s.capacity) data
                    (min data.length s.AvailableToWrite)
                 writePos := s.writePos + min data.length s.AvailableToWrite }) := by
    unfold SpscState.Write
    simp [h0, hw]
  set b := min data.length s.AvailableToWrite with hbdef
  have hbw : b ≤ s.capacity - (s.writePos - s.readPos) := Nat.min_le_right _ _
  have hblen : b ≤ data.length := Nat.min_le_left _ _
  have hbcap : b ≤ s.capacity := by omega
  have hoff : s.writePos % s.capacity < s.capacity := Nat.mod_lt _ (by omega)
  rw [hstep]
  refine ⟨rfl, rfl, rfl, ⟨hc, by simp; omega, by simp; omega⟩, ?_⟩
  -- the unread bytes: old unread region untouched, new bytes appended
  show ringSlice _ s.capacity s.readPos (s.writePos + b - s.readPos) =
    s.unread ++ data.take b
  have hsplitn : s.writePos + b - s.readPos = (s.writePos - s.readPos) + b := by omega
  rw [hsplitn, ringSlice_add]
  congr 1
  · -- untouched prefix
    refine ringSlice_congr ?_
    intro j hj
    apply writeWrap_miss _ _ _ _ _ hoff _ (Nat.mod_lt _ (by omega))
    intro i hi heq
    rw [Nat.mod_add_mod] at heq
    have hweq : s.writePos + i = s.readPos + ((s.writePos - s.readPos) + i) := by omega
    rw [hweq] at heq
    have := @eq_of_add_mod_eq s.capacity s.readPos j ((s.writePos - s.readPos) + i)
      (by omega) (by omega) heq
    omega
  · -- the freshly written bytes
    have hstart : s.readPos + (s.writePos - s.readPos) = s.writePos := by omega
    rw [hstart]
    rw [← ringSlice_mod_start]
    unfold ringSlice
    rw [take_eq_range_map data b hblen]
    apply List.map_congr_left
    intro i hi
    exact writeWrap_hit _ _ _ _ _ hoff hbcap i (List.mem_range.mp hi)

/-- Full characterization of `Read` on a well-formed ring state: the
returned bytes split off the front of the unread region. -/
theorem read_spec (s : SpscState) (maxBytes : Nat) (hs : GoodRing s) :
    (s.Read maxBytes).2.capacity = s.capacity ∧
    (s.Read maxBytes).2.writePos = s.writePos ∧
    (s.Read maxBytes).2.readPos = s.readPos + min maxBytes s.AvailableToRead ∧
    GoodRing (s.Read maxBytes).2 ∧
    s.unread = (s.Read maxBytes).1 ++ (s.Read maxBytes).2.unread := by
  obtain ⟨hc, hrw, hd⟩ := hs
  by_cases h0 : maxBytes = 0
  · simp [SpscState.Read, h0, GoodRing, hc, hrw, hd]
  by_cases hr : s.AvailableToRead = 0
  · simp [SpscState.Read, h0, hr, GoodRing, hc, hrw, hd]
  have hstep : s.Read maxBytes =
      (readWrap s.buffer s.capacity (s.readPos % s.capacity)
          (min maxBytes s.AvailableToRead),
        { s with readPos := s.readPos + min maxBytes s.AvailableToRead }) := by
    unfold SpscState.Read
    simp [h0, hr]
  set b := min maxBytes s.AvailableToRead with hbdef
  have hbr : b ≤ s.writePos - s.readPos := Nat.min_le_right _ _
  have hbcap : b ≤ s.capacity := by omega
  rw [hstep]
  refine ⟨rfl, rfl, rfl, ⟨hc, by simp; omega, by simp; omega⟩, ?_⟩
  rw [readWrap_eq_ringSlice _ _ _ _ (Nat.mod_lt _ (by omega)) hbcap,
    ringSlice_mod_start]
  show s.unread = _ ++ ringSlice s.buffer s.capacity (s.readPos + b) (s.writePos - (s.readPos + b))
  have hsplit : s.writePos - s.readPos = b + (s.writePos - (s.readPos + b)) := by omega
  unfold SpscState.unread
  rw [hsplit, ringSlice_add]

/-! ### Interleaved operation sequences (claim C1) -/

theorem stepOp_inv (acc : SpscState × List Nat × List Nat) (op : RingOp)
    (h : RingInv acc) : RingInv (stepOp acc op) := by
  obtain ⟨hg, hacc⟩ := h
  cases op with
  | write data =>
      obtain ⟨-, -, -, hg', hun⟩ := write_spec acc.1 data hg
      refine ⟨hg', ?_⟩
      show acc.2.1 ++ data.take (acc.1.Write data).1 = acc.2.2 ++ (acc.1.Write data).2.unread
      rw [write_accepted_eq, hun, hacc, List.append_assoc]
  | read maxBytes =>
      obtain ⟨-, -, -, hg', hun⟩ := read_spec acc.1 maxBytes hg
      refine ⟨hg', ?_⟩
      show acc.2.1 = (acc.2.2 ++ (acc.1.Read maxBytes).1) ++ (acc.1.Read maxBytes).2.unread
      rw [hacc, hun, List.append_assoc]

theorem foldl_ringInv (ops : List RingOp) :
    ∀ acc, RingInv acc → RingInv (ops.foldl stepOp acc) := by
  induction ops with
  | nil => intro acc h; exact h
  | cons op rest ih =>
      intro acc h
      exact ih _ (stepOp_inv acc op h)

theorem runOps_inv (cap : Nat) (ops : List RingOp) : RingInv (runOps cap ops) := by
  apply foldl_ringInv
  exact ⟨goodRing_mkRing cap, by simp [mkRing, SpscState.unread, ringSlice]⟩

/-- **C1** (amended): for every sequence of interleaved `Write`/`Read`
calls (linearized, as the SPSC contract guarantees), the bytes returned
by `Read` equal, in order, a prefix of the bytes *accepted* by `Write`
(each `Write` accepts a prefix of the bytes passed to it, of length its
return value); `AvailableToRead() + AvailableToWrite() = Capacity()`
whenever no operation is in flight; and the write cursor never runs more
than `Capacity()` bytes ahead of the read cursor. -/
theorem claim_C1_ring_reads_prefix_of_accepted (cap : Nat) (ops : List RingOp) :
    (runOps cap ops).2.2 <+: (runOps cap ops).2.1 ∧
    (runOps cap ops).1.AvailableToRead + (runOps cap ops).1.AvailableToWrite =
      (runOps cap ops).1.Capacity ∧
    (runOps cap ops).1.writePos - (runOps cap ops).1.readPos ≤
      (runOps cap ops).1.Capacity := by
  obtain ⟨⟨hc, hrw, hd⟩, hacc⟩ := runOps_inv cap ops
  refine ⟨⟨(runOps cap ops).1.unread, hacc.symm⟩, ?_, hd⟩
  unfold SpscState.AvailableToRead SpscState.AvailableToWrite SpscState.Capacity
  omega

/-- **C1** counterexample to the claim as stated: with capacity 1, the
call `Write([10, 20])` accepts only the byte `10`; after `Write([30])`
and two reads the bytes returned by `Read` are `[10, 30]`, which is not
a prefix of `[10, 20, 30]`, the bytes passed to `Write`. -/
theorem claim_C1_counterexample :
    ¬ ((runOps 1 [RingOp.write [10, 20], RingOp.read 1, RingOp.write [30],
          RingOp.read 1]).2.2 <+:
        passedBytes [RingOp.write [10, 20], RingOp.read 1, RingOp.write [30],
          RingOp.read 1]) := by
  decide

/-- **C10**: a zero capacity request is promoted to 1 so `Capacity() ≥ 1`
for every constructor argument, and `Write`/`Read` are total with no
error path, always returning `min(requested, available)`. -/
theorem claim_C10_ring_never_div_zero :
    (∀ c, 1 ≤ (mkRing c).Capacity) ∧ (mkRing 0).Capacity = 1 ∧
    (∀ s data, (SpscState.Write s data).1 = min data.length s.AvailableToWrite) ∧
    (∀ s m, (SpscState.Read s m).1.length = min m s.AvailableToRead) := by
  refine ⟨fun c => (goodRing_mkRing c).1, by simp [mkRing, SpscState.Capacity],
    write_accepted_eq, read_length_eq⟩

/-! ### WavWriter correctness (claims C5, C9) -/

theorem u32le_length (v : Nat) : (u32le v).length = 4 := by
  simp [u32le]

theorem listOverwrite_append (pre mid post v : List Nat) (hlen : v.length = mid.length) :
    listOverwrite (pre ++ mid ++ post) pre.length v = pre ++ v ++ post := by
  unfold listOverwrite
  have htake : (pre ++ mid ++ post).take pre.length = pre := by
    rw [List.append_assoc, List.take_left]
  have hdrop : (pre ++ mid ++ post).drop (pre.length + v.length) = post := by
    rw [hlen, ← List.length_append pre mid, List.drop_left]
  rw [htake, hdrop]

theorem readU32_field (pre : List Nat) (v : Nat) (post : List Nat) :
    readU32 (pre ++ u32le v ++ post) pre.length = v % 2 ^ 32 := by
  unfold readU32 u32le
  rw [List.append_assoc]
  have e0 : (pre ++ ([v % 256, v / 256 % 256, v / 65536 % 256, v / 16777216 % 256] ++
      post)).getD pre.length 0 = v % 256 := by
    rw [List.getD_append_right pre _ 0 _ (Nat.le_refl _), Nat.sub_self]
    rfl
  have e1 : (pre ++ ([v % 256, v / 256 % 256, v / 65536 % 256, v / 16777216 % 256] ++
      post)).getD (pre.length + 1) 0 = v / 256 % 256 := by
    rw [List.getD_append_right pre _ 0 _ (Nat.le_add_right _ _), Nat.add_sub_cancel_left]
    rfl
  have e2 : (pre ++ ([v % 256, v / 256 % 256, v / 65536 % 256, v / 16777216 % 256] ++
      post)).getD (pre.length + 2) 0 = v / 65536 % 256 := by
    rw [List.getD_append_right pre _ 0 _ (Nat.le_add_right _ _), Nat.add_sub_cancel_left]
    rfl
  have e3 : (pre ++ ([v % 256, v / 256 % 256, v / 65536 % 256, v / 16777216 % 256] ++
      post)).getD (pre.length + 3) 0 = v / 16777216 % 256 := by
    rw [List.getD_append_right pre _ 0 _ (Nat.le_add_right _ _), Nat.add_sub_cancel_left]
    rfl
  rw [e0, e1, e2, e3]
  have hM : (2 : Nat) ^ 32 = 4294967296 := by norm_num
  rw [hM]
  omega

theorem wavWrite_foldl (writes : List (List Nat)) :
    ∀ s : WavState, s.dataBytes < 2 ^ 32 → writes.foldl WavWrite s =
      { s with file := s.file ++ writes.flatten
               dataBytes := (s.dataBytes + writes.flatten.length) % 2 ^ 32 } := by
  induction writes with
  | nil =>
      intro s hs
      cases s with
      | mk fb f db fin =>
          have hs2 : db < 2 ^ 32 := hs
          simp only [List.foldl_nil, List.flatten_nil, List.append_nil, List.length_nil,
            Nat.add_zero]
          rw [Nat.mod_eq_of_lt hs2]
  | cons d rest ih =>
      intro s hs
      rw [List.foldl_cons, ih (WavWrite s d) (Nat.mod_lt _ (by norm_num))]
      simp [WavWrite, Nat.mod_add_mod, List.append_assoc, Nat.add_assoc]

theorem listOverwrite_shape (F pre mid post v : List Nat) (off : Nat)
    (hF : F = pre ++ (mid ++ post)) (hoff : off = pre.length)
    (hlen : v.length = mid.length) :
    listOverwrite F off v = pre ++ (v ++ post) := by
  subst hF hoff
  unfold listOverwrite
  have htake : (pre ++ (mid ++ post)).take pre.length = pre := List.take_left pre _
  have hdrop : (pre ++ (mid ++ post)).drop (pre.length + v.length) = post := by
    rw [hlen, ← List.length_append pre mid, ← List.append_assoc]
    exact List.drop_left _ _
  rw [htake, hdrop, List.append_assoc]

/-- The finalized WAV file of a full session is exactly the canonical
render: header offsets 4 and `24 + blob.length` are where the size
fields live, and the payload follows untouched. -/
theorem runWav_render (blob : List Nat) (writes : List (List Nat)) :
    runWav blob writes =
      { formatBlob := blob, file := wavRender blob writes.flatten
        dataBytes := writes.flatten.length % 2 ^ 32, finalized := true } := by
  unfold runWav
  rw [wavWrite_foldl writes (mkWavWriter blob) (by simp [mkWavWriter])]
  show WavClose _ = _
  unfold WavClose
  simp only [mkWavWriter, wavHeaderBytes, Nat.zero_add, if_false, Bool.false_eq_true,
    ite_false]
  unfold WavFinalizeHeader
  dsimp only
  rw [listOverwrite_shape _ riffTag (u32le 0)
      (waveTag ++ (fmtTag ++ (u32le (blob.length % 2 ^ 32) ++ (blob ++ (dataTag ++
        (u32le 0 ++ writes.flatten))))))
      (u32le ((4 + 8 + blob.length % 2 ^ 32 + 8 + writes.flatten.length % 2 ^ 32) % 2 ^ 32)) 4
      (by simp [riffTag, List.append_assoc]) (by simp [riffTag]) (by simp [u32le])]
  rw [listOverwrite_shape _
      (riffTag ++ (u32le ((4 + 8 + blob.length % 2 ^ 32 + 8 +
          writes.flatten.length % 2 ^ 32) % 2 ^ 32) ++ (waveTag ++ (fmtTag ++
        (u32le (blob.length % 2 ^ 32) ++ (blob ++ dataTag))))))
      (u32le 0) writes.flatten (u32le (writes.flatten.length % 2 ^ 32))
      (24 + blob.length)
      (by simp [List.append_assoc]) (by simp [riffTag, waveTag, fmtTag, dataTag, u32le]; omega)
      (by simp [u32le])]
  simp [wavRender, List.append_assoc]

/-- The `data` chunk size field of a rendered WAV file sits at offset
`24 + blob.length` and holds the payload length mod `2^32`. -/
theorem readU32_dataField (blob payload : List Nat) :
    readU32 (wavRender blob payload) (24 + blob.length) = payload.length % 2 ^ 32 := by
  have hsh : wavRender blob payload =
      (riffTag ++ u32le ((4 + 8 + blob.length % 2 ^ 32 + 8 + payload.length % 2 ^ 32) % 2 ^ 32) ++
        waveTag ++ fmtTag ++ u32le (blob.length % 2 ^ 32) ++ blob ++ dataTag) ++
        u32le (payload.length % 2 ^ 32) ++ payload := by
    simp [wavRender, List.append_assoc]
  have hlen : 24 + blob.length =
      (riffTag ++ u32le ((4 + 8 + blob.length % 2 ^ 32 + 8 + payload.length % 2 ^ 32) % 2 ^ 32) ++
        waveTag ++ fmtTag ++ u32le (blob.length % 2 ^ 32) ++ blob ++ dataTag).length := by
    simp [riffTag, waveTag, fmtTag, dataTag, u32le]
    omega
  rw [hsh, hlen, readU32_field]
  exact Nat.mod_eq_of_lt (Nat.mod_lt _ (by norm_num))

/-- The RIFF size field of a rendered WAV file sits at offset 4. -/
theorem readU32_riffField (blob payload : List Nat) :
    readU32 (wavRender blob payload) 4 =
      (4 + 8 + blob.length % 2 ^ 32 + 8 + payload.length % 2 ^ 32) % 2 ^ 32 := by
  have hsh : wavRender blob payload =
      riffTag ++ u32le ((4 + 8 + blob.length % 2 ^ 32 + 8 + payload.length % 2 ^ 32) % 2 ^ 32) ++
        (waveTag ++ fmtTag ++ u32le (blob.length % 2 ^ 32) ++ blob ++ dataTag ++
          u32le (payload.length % 2 ^ 32) ++ payload) := by
    simp [wavRender, List.append_assoc]
  have hlen : (4 : Nat) = riffTag.length := by simp [riffTag]
  rw [hsh, hlen, readU32_field]
  exact Nat.mod_eq_of_lt (Nat.mod_lt _ (by norm_num))

/-- The payload of a rendered WAV file starts at offset `28 + blob.length`. -/
theorem wavRender_drop (blob payload : List Nat) :
    (wavRender blob payload).drop (28 + blob.length) = payload := by
  have hsh : wavRender blob payload =
      (riffTag ++ u32le ((4 + 8 + blob.length % 2 ^ 32 + 8 + payload.length % 2 ^ 32) % 2 ^ 32) ++
        waveTag ++ fmtTag ++ u32le (blob.length % 2 ^ 32) ++ blob ++ dataTag ++
          u32le (payload.length % 2 ^ 32)) ++ payload := by
    simp [wavRender, List.append_assoc]
  have hlen : 28 + blob.length =
      (riffTag ++ u32le ((4 + 8 + blob.length % 2 ^ 32 + 8 + payload.length % 2 ^ 32) % 2 ^ 32) ++
        waveTag ++ fmtTag ++ u32le (blob.length % 2 ^ 32) ++ blob ++ dataTag ++
          u32le (payload.length % 2 ^ 32)).length := by
    simp [riffTag, waveTag, fmtTag, dataTag, u32le]
    omega
  rw [hsh, hlen, List.drop_left]

/-- **C5** (amended): as long as the totals fit a `uint32_t` (the header
fields are 32-bit), the finalized file's `data` chunk size field equals
the total payload bytes written, the RIFF size field equals
`4 + 8 + fmt-blob-size + 8 + data-bytes`, and the payload bytes in the
file are byte-identical to the bytes passed to `Write`, in order. -/
theorem claim_C5_wav_header_exact (blob : List Nat) (writes : List (List Nat))
    (hsum : 4 + 8 + blob.length + 8 + writes.flatten.length < 2 ^ 32) :
    (runWav blob writes).file = wavRender blob writes.flatten ∧
    readU32 (runWav blob writes).file (24 + blob.length) = writes.flatten.length ∧
    readU32 (runWav blob writes).file 4 =
      4 + 8 + blob.length + 8 + writes.flatten.length ∧
    (runWav blob writes).file.drop (28 + blob.length) = writes.flatten := by
  have hbl : blob.length % 2 ^ 32 = blob.length := Nat.mod_eq_of_lt (by omega)
  have hpl : writes.flatten.length % 2 ^ 32 = writes.flatten.length :=
    Nat.mod_eq_of_lt (by omega)
  have hfile : (runWav blob writes).file = wavRender blob writes.flatten := by
    rw [runWav_render]
  refine ⟨hfile, ?_, ?_, ?_⟩
  · rw [hfile, readU32_dataField, hpl]
  · rw [hfile, readU32_riffField, hbl, hpl, Nat.mod_eq_of_lt (by omega)]
  · rw [hfile, wavRender_drop]

/-- **C5** witness: a concrete 18-byte `fmt ` blob and two writes. -/
theorem claim_C5_wav_header_exact_witness :
    4 + 8 + (List.replicate 18 0 : List Nat).length + 8 +
      ([[5, 6, 7], [8]] : List (List Nat)).flatten.length < 2 ^ 32 ∧
    readU32 (runWav (List.replicate 18 0) [[5, 6, 7], [8]]).file
      (24 + (List.replicate 18 0 : List Nat).length) =
      ([[5, 6, 7], [8]] : List (List Nat)).flatten.length ∧
    (runWav (List.replicate 18 0) [[5, 6, 7], [8]]).file.drop
      (28 + (List.replicate 18 0 : List Nat).length) =
      ([[5, 6, 7], [8]] : List (List Nat)).flatten :=
  ⟨by decide,
    (claim_C5_wav_header_exact (List.replicate 18 0) [[5, 6, 7], [8]] (by decide)).2.1,
    (claim_C5_wav_header_exact (List.replicate 18 0) [[5, 6, 7], [8]] (by decide)).2.2.2⟩

/-- **C5** counterexample to the claim as stated: `dataBytes_` is a
`uint32_t`, so after writing exactly `2^32` payload bytes the finalized
`data` chunk size field holds 0, not the total number of payload bytes
written. -/
theorem claim_C5_counterexample :
    readU32 (runWav [] [List.replicate (2 ^ 32) 0]).file 24 = 0 ∧
    ([List.replicate (2 ^ 32) 0] : List (List Nat)).flatten.length = 2 ^ 32 ∧
    (0 : Nat) ≠ 2 ^ 32 := by
  have hflat : ([List.replicate (2 ^ 32) 0] : List (List Nat)).flatten =
      List.replicate (2 ^ 32) 0 := by
    rw [List.flatten_cons, List.flatten_nil, List.append_nil]
  refine ⟨?_, ?_, by norm_num⟩
  · have hfile : (runWav [] [List.replicate (2 ^ 32) 0]).file =
        wavRender [] (List.replicate (2 ^ 32) 0) := by
      rw [runWav_render, hflat]
    rw [hfile]
    have h24 : (24 : Nat) = 24 + ([] : List Nat).length := rfl
    rw [h24, readU32_dataField, List.length_replicate, Nat.mod_self]
  · rw [hflat, List.length_replicate]

/-! ### Segment naming (claim C7) -/

theorem decimalDigitsRevAux_foldr :
    ∀ fuel n, n < fuel →
      (decimalDigitsRevAux fuel n).foldr (fun d acc => acc * 10 + d) 0 = n := by
  intro fuel
  induction fuel with
  | zero => intro n h; omega
  | succ fuel ih =>
      intro n h
      unfold decimalDigitsRevAux
      split
      · simp
      · rename_i h10
        have hdiv : n / 10 < fuel := by
          have h1 : n / 10 < n := Nat.div_lt_self (by omega) (by omega)
          omega
        rw [List.foldr_cons, ih (n / 10) hdiv]
        omega

theorem decimalDigitsRev_foldr (n : Nat) :
    (decimalDigitsRev n).foldr (fun d acc => acc * 10 + d) 0 = n :=
  decimalDigitsRevAux_foldr (n + 1) n (Nat.lt_succ_self n)

theorem decimalDigitsRevAux_lt_ten :
    ∀ fuel n, n < fuel → ∀ d ∈ decimalDigitsRevAux fuel n, d < 10 := by
  intro fuel
  induction fuel with
  | zero => intro n h; omega
  | succ fuel ih =>
      intro n h
      unfold decimalDigitsRevAux
      split
      · rename_i h10
        intro d hd
        simp at hd
        omega
      · rename_i h10
        intro d hd
        rcases List.mem_cons.mp hd with h1 | h2
        · omega
        · have hdiv : n / 10 < fuel := by
            have h1 : n / 10 < n := Nat.div_lt_self (by omega) (by omega)
            omega
          exact ih (n / 10) hdiv d h2

theorem decimalDigitsRev_lt_ten (n : Nat) : ∀ d ∈ decimalDigitsRev n, d < 10 :=
  decimalDigitsRevAux_lt_ten (n + 1) n (Nat.lt_succ_self n)

theorem digitsVal_decimalDigits (n : Nat) : digitsVal (decimalDigits n) = n := by
  unfold digitsVal decimalDigits
  rw [List.foldl_reverse]
  exact decimalDigitsRev_foldr n

theorem digitsVal_pad (k : Nat) (ds : List Nat) :
    digitsVal (List.replicate k 0 ++ ds) = digitsVal ds := by
  unfold digitsVal
  rw [List.foldl_append]
  have hzero : List.foldl (fun acc d => acc * 10 + d) 0 (List.replicate k 0) = 0 := by
    induction k with
    | zero => rfl
    | succ k ihk => rw [List.replicate_succ, List.foldl_cons]; simpa using ihk
  rw [hzero]

/-- **C7** (amended): the naming function is deterministic and produces
`stem ++ "_" ++ digits ++ ext` where `digits` is the decimal rendering
of the ONE-based index `N + 1` (not the zero-based `N`), zero-padded to
width at least 3; the digits parse back to exactly `N + 1`. -/
theorem claim_C7_segment_naming (stem ext : String) (idx : Nat) :
    BuildSegmentPath stem ext idx =
      (if stem = "" then "segment" else stem) ++ "_" ++
        String.mk ((padded3 (idx + 1)).map digitChar) ++ ext ∧
    digitsVal (padded3 (idx + 1)) = idx + 1 ∧
    3 ≤ (padded3 (idx + 1)).length ∧
    ∀ d ∈ padded3 (idx + 1), d < 10 := by
  refine ⟨rfl, ?_, ?_, ?_⟩
  · unfold padded3
    rw [digitsVal_pad, digitsVal_decimalDigits]
  · unfold padded3
    rw [List.length_append, List.length_replicate]
    omega
  · intro d hd
    unfold padded3 at hd
    rcases List.mem_append.mp hd with h1 | h2
    · have := List.eq_of_mem_replicate h1
      omega
    · exact decimalDigitsRev_lt_ten (idx + 1) d (List.mem_reverse.mp h2)

/-- **C7** counterexample to the claim as stated: for index 0 the code
produces the suffix `_001` (one-based), not the zero-based `_000` the
claim describes. -/
theorem claim_C7_counterexample :
    BuildSegmentPath "rec" ".wav" 0 = "rec_001.wav" ∧
    claimSegmentName "rec" ".wav" 0 = "rec_000.wav" ∧
    BuildSegmentPath "rec" ".wav" 0 ≠ claimSegmentName "rec" ".wav" 0 := by
  refine ⟨?_, ?_, ?_⟩ <;> decide

/-! ### Format validation and startup ordering (claim C8) -/

/-- **C8**: a mix format passes validation iff it is 16-bit integer PCM
or 32-bit IEEE float, including the `WAVE_FORMAT_EXTENSIBLE` equivalents
of those two; on any other format (or a null format pointer) `Record`
throws synchronously — the startup sequence produces an error with no
events at all, so no encode thread, no stop-watcher thread and no output
file; when startup succeeds, validation is the first event. -/
theorem claim_C8_format_gate (fmt : Option WaveFormat) (hasStop : Bool) :
    (IsSupportedFormat fmt = true ↔
      ∃ f, fmt = some f ∧
        ((f.formatTag = WAVE_FORMAT_PCM ∧ f.bitsPerSample = 16) ∨
         (f.formatTag = WAVE_FORMAT_IEEE_FLOAT ∧ f.bitsPerSample = 32) ∨
         (f.formatTag = WAVE_FORMAT_EXTENSIBLE ∧
           f.subFormat = KSDATAFORMAT_SUBTYPE_PCM ∧ f.bitsPerSample = 16) ∨
         (f.formatTag = WAVE_FORMAT_EXTENSIBLE ∧
           f.subFormat = KSDATAFORMAT_SUBTYPE_IEEE_FLOAT ∧ f.bitsPerSample = 32))) ∧
    (IsSupportedFormat fmt = false →
      recordStartup fmt hasStop =
        Except.error "only 16-bit PCM or 32-bit float formats are supported") ∧
    (∀ events, recordStartup fmt hasStop = Except.ok events →
      IsSupportedFormat fmt = true ∧
      events.head? = some StartupEvent.validatedFormat) := by
  refine ⟨?_, ?_, ?_⟩
  · constructor
    · intro h
      match fmt with
      | none => simp [IsSupportedFormat] at h
      | some f =>
          refine ⟨f, rfl, ?_⟩
          simp only [IsSupportedFormat] at h
          split_ifs at h with h1 h2 h3 h4 h5
          · exact Or.inr (Or.inl h1)
          · exact Or.inl h2
          · exact Or.inr (Or.inr (Or.inl ⟨h3, h4⟩))
          · exact Or.inr (Or.inr (Or.inr ⟨h3, h5⟩))
    · rintro ⟨f, rfl, hcase⟩
      simp only [IsSupportedFormat]
      unfold WAVE_FORMAT_PCM WAVE_FORMAT_IEEE_FLOAT WAVE_FORMAT_EXTENSIBLE
        KSDATAFORMAT_SUBTYPE_PCM KSDATAFORMAT_SUBTYPE_IEEE_FLOAT at hcase ⊢
      split_ifs with h1 h2 h3 h4 h5 <;> first | rfl | omega
  · intro h
    unfold recordStartup ValidateFormat
    rw [h]
    rfl
  · intro events hok
    unfold recordStartup ValidateFormat at hok
    by_cases h : IsSupportedFormat fmt = true
    · refine ⟨h, ?_⟩
      rw [if_pos h] at hok
      cases hok
      rfl
    · rw [if_neg h] at hok
      cases hok

/-! ### Close idempotence and empty files (claim C9) -/

/-- **C9**: for both the WAV and the MP3 backends `Close()` is
idempotent — after the first `Close()` a further `Close()` changes
neither the writer state nor the file bytes — and closing with zero
audio bytes written still yields a well-formed file: the WAV file is the
canonical header with a zero-length `data` chunk, and the MP3 file is
exactly the encoder's flush tail. -/
theorem claim_C9_close_idempotent :
    (∀ s, WavClose (WavClose s) = WavClose s) ∧
    (∀ blob, (runWav blob []).file = wavRender blob [] ∧
      (runWav blob []).finalized = true) ∧
    (∀ enc bpf s, Mp3Close enc bpf (Mp3Close enc bpf s) = Mp3Close enc bpf s) ∧
    (∀ enc bpf, (Mp3Close enc bpf mkMp3Writer).file = enc.flushTail ∧
      (Mp3Close enc bpf mkMp3Writer).finalized = true) := by
  refine ⟨?_, ?_, ?_, ?_⟩
  · intro s
    by_cases h : s.finalized
    · simp [WavClose, h]
    · simp only [WavClose, h, if_false]
      simp [WavClose]
  · intro blob
    exact ⟨by rw [runWav_render]; rfl, by rw [runWav_render]⟩
  · intro enc bpf s
    by_cases h : s.finalized
    · simp [Mp3Close, h]
    · unfold Mp3Close
      rw [if_neg h]
      by_cases hstream : s.streamOpen
      · rw [if_pos hstream]
        rfl
      · rw [if_neg hstream]
        simp
  · intro enc bpf
    constructor
    · simp [Mp3Close, mkMp3Writer]
    · simp [Mp3Close, mkMp3Writer]

/-! ### pushToRing backpressure policy (claim C2) -/

theorem pushLoop_warnBudget (fail : Bool) (bpf : Nat) (src : List Nat)
    (fuel : Nat) (st : CaptureState) (acc : Nat) (env : List PushEnv) :
    warnBudget (pushLoop fail bpf src fuel st acc env).2.2.2 = warnBudget st := by
  induction fuel, st, acc, env using pushLoop.induct fail bpf src
  all_goals first
    | rfl
    | (simp_all [pushLoop, bumpRingWaits, warnBudget, pushTimeoutUpdate, pushWaitDrain]
       done)
    | (simp_all [pushLoop, bumpRingWaits, warnBudget, pushTimeoutUpdate, pushWaitDrain]
       split_ifs <;> simp_all <;> omega)

theorem pushLoop_props (fail : Bool) (bpf : Nat) (src : List Nat)
    (fuel : Nat) (st : CaptureState) (acc : Nat) (env : List PushEnv) :
    (∀ e ∈ env, e.fatal = false) → acc ≤ src.length →
    ((pushLoop fail bpf src fuel st acc env).2.2.1 ≠ PushExit.fatalStop ∧
     ((pushLoop fail bpf src fuel st acc env).2.2.1 = PushExit.timedOut →
       (pushLoop fail bpf src fuel st acc env).2.2.2.stats.framesDropped =
         st.stats.framesDropped +
           (src.length - (pushLoop fail bpf src fuel st acc env).2.1) / bpf ∧
       ((pushLoop fail bpf src fuel st acc env).1 = false ↔ fail = true)) ∧
     ((pushLoop fail bpf src fuel st acc env).2.2.1 ≠ PushExit.timedOut →
       (pushLoop fail bpf src fuel st acc env).2.2.2.stats.framesDropped =
         st.stats.framesDropped ∧
       (pushLoop fail bpf src fuel st acc env).1 = true) ∧
     ((pushLoop fail bpf src fuel st acc env).2.2.1 = PushExit.completed →
       (pushLoop fail bpf src fuel st acc env).2.1 = src.length)) := by
  induction fuel, st, acc, env using pushLoop.induct fail bpf src with
  | case1 st acc env =>
      intro henv hacc
      simp [pushLoop]
  | case2 fuel st acc hlt hw0 =>
      intro henv hacc
      simp [pushLoop, hlt, hw0, bumpRingWaits]
  | case3 fuel st acc hlt hw0 e envRest hfatal =>
      intro henv hacc
      have := henv e (List.mem_cons_self e envRest)
      simp_all
  | case4 fuel st acc hlt hw0 e envRest hfat hwait ih =>
      intro henv hacc
      have ih2 := ih (fun x hx => henv x (List.mem_cons_of_mem e hx)) hacc
      simp only [pushLoop, hlt, hw0, hfat, hwait, if_true, if_false, ite_true,
        ite_false, Bool.false_eq_true, if_pos, if_neg, not_false_eq_true]
      simpa [pushWaitDrain, bumpRingWaits] using ih2
  | case5 fuel st acc hlt hw0 e envRest hfat hwait hfail =>
      intro henv hacc
      simp [pushLoop, hlt, hw0, hfat, hwait, hfail, pushTimeoutUpdate,
        pushWaitDrain, bumpRingWaits]
      split_ifs <;> simp_all
  | case6 fuel st acc hlt hw0 e envRest hfat hwait hfail =>
      intro henv hacc
      simp [pushLoop, hlt, hw0, hfat, hwait, hfail, pushTimeoutUpdate,
        pushWaitDrain, bumpRingWaits]
      split_ifs <;> simp_all
  | case7 fuel st acc env hlt hwpos ih =>
      intro henv hacc
      have hw := write_accepted_eq st.ring (src.drop acc)
      rw [List.length_drop] at hw
      have hmin : (st.ring.Write (src.drop acc)).1 ≤ src.length - acc := by
        rw [hw]; exact Nat.min_le_left _ _
      have ih2 := ih henv (by omega)
      simp only [pushLoop, hlt, hwpos, if_true, if_false, ite_true, ite_false,
        if_pos, if_neg, not_false_eq_true]
      simpa using ih2
  | case8 fuel st acc env hge =>
      intro henv hacc
      simp [pushLoop, hge]
      omega

theorem runPushes_warnBudget (fail : Bool) (bpf : Nat) :
    ∀ pushes (st : CaptureState),
      warnBudget (runPushes fail bpf pushes st) = warnBudget st := by
  intro pushes
  induction pushes with
  | nil => intro st; rfl
  | cons p rest ih =>
      intro st
      unfold runPushes at ih ⊢
      rw [List.foldl_cons, ih]
      exact pushLoop_warnBudget fail bpf p.1 _ st 0 p.2

/-- **C2**: when `Write` returns 0 with no fatal error pending, the
producer waits on the space-available event; on success it retries (the
loop structure); on wait timeout it drops exactly the remaining whole
frames of the packet, adds them to `framesDropped`, and aborts the
capture loop if and only if `failOnGlitch` is configured; when no
timeout occurs nothing is dropped and the push succeeds; and across a
whole session the drop warning is issued at most once. -/
theorem claim_C2_push_drop_policy (fail : Bool) (bpf : Nat) (src : List Nat)
    (env : List PushEnv) (st : CaptureState)
    (henv : ∀ e ∈ env, e.fatal = false) :
    ((pushToRing fail bpf src env st).2.2.1 ≠ PushExit.fatalStop) ∧
    ((pushToRing fail bpf src env st).2.2.1 = PushExit.timedOut →
      (pushToRing fail bpf src env st).2.2.2.stats.framesDropped =
        st.stats.framesDropped +
          (src.length - (pushToRing fail bpf src env st).2.1) / bpf ∧
      ((pushToRing fail bpf src env st).1 = false ↔ fail = true)) ∧
    ((pushToRing fail bpf src env st).2.2.1 ≠ PushExit.timedOut →
      (pushToRing fail bpf src env st).2.2.2.stats.framesDropped =
        st.stats.framesDropped ∧
      (pushToRing fail bpf src env st).1 = true) ∧
    ((pushToRing fail bpf src env st).2.2.1 = PushExit.completed →
      (pushToRing fail bpf src env st).2.1 = src.length) ∧
    (∀ pushes st0, st0.dropWarningIssued = false → st0.dropWarnings = 0 →
      (runPushes fail bpf pushes st0).dropWarnings ≤ 1) := by
  have hp := pushLoop_props fail bpf src (src.length + env.length + 1) st 0 env
    henv (Nat.zero_le _)
  refine ⟨hp.1, hp.2.1, hp.2.2.1, hp.2.2.2, ?_⟩
  intro pushes st0 hflag hwarn
  have hb := runPushes_warnBudget fail bpf pushes st0
  unfold warnBudget at hb
  rw [hflag, hwarn] at hb
  split_ifs at hb <;> omega

/-- **C2** witness: capacity-1 ring, two bytes pushed, one timeout
event — the second byte's frame is dropped and the push reports the
timeout with `failOnGlitch = true` forcing the abort. -/
theorem claim_C2_push_drop_policy_witness :
    (∀ e ∈ [PushEnv.mk false 0 WaitOutcome.timeout], e.fatal = false) ∧
    ((pushToRing true 1 [1, 2] [PushEnv.mk false 0 WaitOutcome.timeout]
        (CaptureState.mk (mkRing 1) initStats 0 false 0)).2.2.1 = PushExit.timedOut →
      (pushToRing true 1 [1, 2] [PushEnv.mk false 0 WaitOutcome.timeout]
        (CaptureState.mk (mkRing 1) initStats 0 false 0)).2.2.2.stats.framesDropped =
        (CaptureState.mk (mkRing 1) initStats 0 false 0).stats.framesDropped +
          ([1, 2].length -
            (pushToRing true 1 [1, 2] [PushEnv.mk false 0 WaitOutcome.timeout]
              (CaptureState.mk (mkRing 1) initStats 0 false 0)).2.1) / 1 ∧
      ((pushToRing true 1 [1, 2] [PushEnv.mk false 0 WaitOutcome.timeout]
          (CaptureState.mk (mkRing 1) initStats 0 false 0)).1 = false ↔ true = true)) :=
  ⟨by decide,
    (claim_C2_push_drop_policy true 1 [1, 2] [PushEnv.mk false 0 WaitOutcome.timeout]
      (CaptureState.mk (mkRing 1) initStats 0 false 0) (by decide)).2.1⟩

/-! ### Pause handling (claim C3) -/

set_option linter.unnecessarySeqFocus false in
/-- **C3** (amended): for a packet fetched while `isPaused()` polls
true, no byte of the packet reaches the ring buffer and the packet's
frames are not counted in `framesCaptured` — unconditionally; and unless
the packet carries the discontinuity flag under `failOnGlitch` (which
aborts the session before the pause check), the packet's frame count is
added to `framesWhilePaused`. -/
theorem claim_C3_paused_packets_discarded (cfg : RecConfig) (bpf : Nat)
    (pkt : Packet) (ps : PacketScript) (st : CaptureState)
    (hfetch : ps.step.fetch = AudioResult.ok pkt)
    (hpaused : ps.step.paused = true) :
    (runPackets cfg bpf [ps] st).2.ring = st.ring ∧
    (runPackets cfg bpf [ps] st).2.framesRecorded = st.framesRecorded ∧
    (¬(pkt.discontinuity = true ∧ cfg.failOnGlitch = true) →
      (runPackets cfg bpf [ps] st).2.stats.framesWhilePaused =
        st.stats.framesWhilePaused + pkt.frames) := by
  unfold runPackets
  rw [hfetch]
  by_cases hd : pkt.discontinuity = true
  · by_cases hg : cfg.failOnGlitch = true
    · simp [hd, hg]
    · simp only [hd, hg, Bool.and_false, Bool.false_eq_true, if_false, hpaused,
        if_true, ite_true, ite_false]
      refine ⟨?_, ?_, fun _ => ?_⟩ <;>
        cases ps.nextSize <;>
          simp [handleAudioError, runPackets] <;>
            split_ifs <;> rfl
  · simp only [hd, Bool.false_eq_true, if_false, Bool.false_and, hpaused, if_true,
      ite_true, ite_false]
    refine ⟨?_, ?_, fun _ => ?_⟩ <;>
      cases ps.nextSize <;>
        simp [handleAudioError, runPackets] <;>
          split_ifs <;> rfl

/-- **C3** counterexample to the claim as stated: a discontinuity-flagged
packet under `failOnGlitch` aborts the session before the pause poll, so
a packet captured while paused is then NOT counted in
`framesWhilePaused` (it is counted nowhere). -/
theorem claim_C3_counterexample :
    (runPackets (RecConfig.mk true none none none false false 16 100) 1
        [PacketScript.mk
          (PacketStep.mk (AudioResult.ok (Packet.mk 7 false true [1])) true [])
          SizeResult.empty]
        (CaptureState.mk (mkRing 4) initStats 0 false 0)).2.stats.framesWhilePaused =
      0 ∧
    (0 : Nat) ≠ 0 + 7 ∧
    (runPackets (RecConfig.mk true none none none false false 16 100) 1
        [PacketScript.mk
          (PacketStep.mk (AudioResult.ok (Packet.mk 7 false true [1])) true [])
          SizeResult.empty]
        (CaptureState.mk (mkRing 4) initStats 0 false 0)).1 =
      some LoopExit.glitchAbort := by
  refine ⟨by decide, by decide, by decide⟩

/-! ### Device invalidation (claim C4) -/

/-- **C4**: when `GetNextPacketSize` or `GetBuffer` fails with
`AUDCLNT_E_DEVICE_INVALIDATED` in some loop iteration (from any
mid-session state `st`), the capture loop stops at that iteration — the
rest of the script is never consulted, so there is no retry inside the
core — with `deviceInvalidated = true` in the statistics; and provided
the writer thread did not fail, `Record`'s tail returns those statistics
instead of throwing. -/
theorem claim_C4_device_invalidated (cfg : RecConfig) (bpf : Nat)
    (it : IterStep) (post : List IterStep) (st : CaptureState) (wt so : Nat)
    (hfatal : it.fatal = false) (hstop : it.shouldStop = false)
    (hwait : it.wait = WaitResult.object0)
    (herr : it.firstSize = SizeResult.err AUDCLNT_E_DEVICE_INVALIDATED ∨
      (it.firstSize = SizeResult.more ∧
        ∃ ps rest, it.packets = ps :: rest ∧
          ps.step.fetch = AudioResult.err AUDCLNT_E_DEVICE_INVALIDATED)) :
    (runCapture cfg bpf (it :: post) st).1 = LoopExit.audioCallFailed ∧
    (runCapture cfg bpf (it :: post) st).2.stats.deviceInvalidated = true ∧
    runCapture cfg bpf (it :: post) st = runCapture cfg bpf [it] st ∧
    (∃ stats, finishRecord (runCapture cfg bpf (it :: post) st).2 false wt so =
      Except.ok stats ∧ stats.deviceInvalidated = true) := by
  rcases herr with herr | ⟨hmore, ps, rest, hpk, hfetch⟩
  · have hrun : ∀ tail, runCapture cfg bpf (it :: tail) st =
        (LoopExit.audioCallFailed,
          { st with stats := handleAudioError st.stats AUDCLNT_E_DEVICE_INVALIDATED }) := by
      intro tail
      unfold runCapture
      rw [hfatal, hwait, herr]
      simp [hstop]
    rw [hrun post, hrun []]
    refine ⟨rfl, ?_, rfl, ?_⟩
    · simp [handleAudioError]
    · exact ⟨_, rfl, by simp [handleAudioError, finishRecord]⟩
  · have hrun : ∀ tail, runCapture cfg bpf (it :: tail) st =
        (LoopExit.audioCallFailed,
          { st with stats := handleAudioError st.stats AUDCLNT_E_DEVICE_INVALIDATED }) := by
      intro tail
      unfold runCapture
      rw [hfatal, hwait, hmore, hpk]
      unfold runPackets
      rw [hfetch]
      simp [hstop]
    rw [hrun post, hrun []]
    refine ⟨rfl, ?_, rfl, ?_⟩
    · simp [handleAudioError]
    · exact ⟨_, rfl, by simp [handleAudioError, finishRecord]⟩

/-- **C4** witness: a concrete iteration whose first
`GetNextPacketSize` fails with the invalidated-device code. -/
theorem claim_C4_device_invalidated_witness :
    (runCapture (RecConfig.mk false none none none false false 16 100) 4
      [IterStep.mk false false WaitResult.object0
        (SizeResult.err AUDCLNT_E_DEVICE_INVALIDATED) []]
      (CaptureState.mk (mkRing 8) initStats 0 false 0)).2.stats.deviceInvalidated =
      true :=
  (claim_C4_device_invalidated (RecConfig.mk false none none none false false 16 100) 4
    (IterStep.mk false false WaitResult.object0
      (SizeResult.err AUDCLNT_E_DEVICE_INVALIDATED) [])
    [] (CaptureState.mk (mkRing 8) initStats 0 false 0) 0 1
    rfl rfl rfl (Or.inl rfl)).2.1

/-- **C3** witness: a 5-frame packet fetched while paused. -/
theorem claim_C3_paused_packets_discarded_witness :
    (runPackets (RecConfig.mk false none none none false false 16 100) 2
        [PacketScript.mk
          (PacketStep.mk (AudioResult.ok (Packet.mk 5 false false [9, 9])) true [])
          SizeResult.empty]
        (CaptureState.mk (mkRing 4) initStats 0 false 0)).2.stats.framesWhilePaused =
      (CaptureState.mk (mkRing 4) initStats 0 false 0).stats.framesWhilePaused + 5 :=
  (claim_C3_paused_packets_discarded _ _ (Packet.mk 5 false false [9, 9]) _ _
    rfl rfl).2.2 (by decide)

/-! ### Manual segment rollover timing (claim C6) -/

theorem rollSegment_trace (cfg : RecConfig) (st : WriterState) :
    ∃ e, (rollSegment cfg st).trace = st.trace ++ e := by
  unfold rollSegment
  split_ifs
  · exact ⟨_, rfl⟩
  · exact ⟨[], by simp⟩

theorem writerMaybeRoll_trace (cfg : RecConfig) (it : WriterIter) (st : WriterState) :
    ∃ e, (writerMaybeRoll cfg it st).trace = st.trace ++ e := by
  unfold writerMaybeRoll
  split_ifs
  · exact rollSegment_trace cfg st
  · exact ⟨[], by simp⟩

theorem writerConsumeChunk_trace (cfg : RecConfig) (bpf : Nat) (st1 : WriterState) :
    ∃ e, (writerConsumeChunk cfg bpf st1).trace =
      st1.trace ++ [WriterEvent.readChunk (st1.ring.Read cfg.chunkBytes).1.length,
        WriterEvent.writeChunk st1.currentSegmentIndex
          (st1.ring.Read cfg.chunkBytes).1.length] ++ e := by
  unfold writerConsumeChunk
  dsimp only
  split_ifs with h1 h2 h3
  all_goals first
    | (obtain ⟨e, he⟩ := rollSegment_trace cfg _
       exact ⟨e, by rw [he]⟩)
    | exact ⟨[], by simp⟩

theorem runWriter_trace_mono (cfg : RecConfig) (bpf : Nat) :
    ∀ script (st : WriterState), ∃ t,
      (runWriter cfg bpf script st).trace = st.trace ++ t := by
  intro script
  induction script with
  | nil => intro st; exact ⟨[], by simp [runWriter]⟩
  | cons it rest ih =>
      intro st
      unfold runWriter
      obtain ⟨e1, he1⟩ := writerMaybeRoll_trace cfg it (writerArrive it st)
      have harr : (writerArrive it st).trace = st.trace := rfl
      split_ifs with hcond hread
      · -- empty read: wait branch
        cases hw : it.wait
        · obtain ⟨t, ht⟩ := ih (writerMaybeRoll cfg it (writerArrive it st))
          rw [ht, he1, harr, List.append_assoc]
          exact ⟨_, rfl⟩
        · obtain ⟨t, ht⟩ := ih
            (writerTimeoutUpdate (writerMaybeRoll cfg it (writerArrive it st)))
          rw [ht]
          unfold writerTimeoutUpdate
          dsimp only
          rw [he1, harr]
          simp only [List.append_assoc]
          exact ⟨_, rfl⟩
      · -- chunk consumed
        obtain ⟨e2, he2⟩ :=
          writerConsumeChunk_trace cfg bpf (writerMaybeRoll cfg it (writerArrive it st))
        obtain ⟨t, ht⟩ := ih
          (writerConsumeChunk cfg bpf (writerMaybeRoll cfg it (writerArrive it st)))
        rw [ht, he2, he1, harr]
        simp only [List.append_assoc]
        exact ⟨_, rfl⟩
      · exact ⟨[], by rw [harr, List.append_nil]⟩

/-- **C6** (amended): when the pending manual-rollover request is
consumed — at the top of the next writer-loop iteration, *before* that
iteration's ring read — the new segment file is opened immediately, and
the chunk read in that same iteration (the next processed chunk) is
written to the new segment, never to the old one: the trace continues
`closeSegment i, openSegment (i+1), readChunk n, writeChunk (i+1) n`. -/
theorem claim_C6_manual_rollover (cfg : RecConfig) (bpf : Nat) (it : WriterIter)
    (rest : List WriterIter) (st : WriterState)
    (hseg : cfg.segmentationEnabled = true)
    (hman : cfg.manualSegmentsEnabled = true)
    (hreq : it.manualReq = true)
    (hactive : it.active = true)
    (hdata : 0 < min cfg.chunkBytes (writerArrive it st).ring.AvailableToRead) :
    ∃ n tail, 0 < n ∧
      (runWriter cfg bpf (it :: rest) st).trace =
        st.trace ++ [WriterEvent.closeSegment st.currentSegmentIndex,
          WriterEvent.openSegment (st.currentSegmentIndex + 1),
          WriterEvent.readChunk n,
          WriterEvent.writeChunk (st.currentSegmentIndex + 1) n] ++ tail := by
  have hroll : writerMaybeRoll cfg it (writerArrive it st) =
      rollSegment cfg (writerArrive it st) := by
    unfold writerMaybeRoll
    rw [hman, hreq]
    rfl
  have hringroll : (rollSegment cfg (writerArrive it st)).ring =
      (writerArrive it st).ring := by
    unfold rollSegment
    split_ifs
    all_goals rfl
  have hlen : ((writerMaybeRoll cfg it (writerArrive it st)).ring.Read
      cfg.chunkBytes).1.length =
      min cfg.chunkBytes (writerArrive it st).ring.AvailableToRead := by
    rw [hroll, hringroll, read_length_eq]
  unfold runWriter
  rw [hactive]
  simp only [Bool.true_or, if_true]
  rw [if_neg (by omega : ¬((writerMaybeRoll cfg it (writerArrive it st)).ring.Read
      cfg.chunkBytes).1.length = 0)]
  obtain ⟨e2, he2⟩ :=
    writerConsumeChunk_trace cfg bpf (writerMaybeRoll cfg it (writerArrive it st))
  obtain ⟨t, ht⟩ := runWriter_trace_mono cfg bpf rest
    (writerConsumeChunk cfg bpf (writerMaybeRoll cfg it (writerArrive it st)))
  refine ⟨min cfg.chunkBytes (writerArrive it st).ring.AvailableToRead, e2 ++ t,
    hdata, ?_⟩
  rw [ht, he2, hlen, hroll]
  have htr : (rollSegment cfg (writerArrive it st)).trace =
      st.trace ++ [WriterEvent.closeSegment st.currentSegmentIndex,
        WriterEvent.openSegment (st.currentSegmentIndex + 1)] := by
    unfold rollSegment
    rw [if_pos hseg]
    rfl
  have hidx : (rollSegment cfg (writerArrive it st)).currentSegmentIndex =
      st.currentSegmentIndex + 1 := by
    unfold rollSegment
    rw [if_pos hseg]
    rfl
  rw [htr, hidx]
  simp [List.append_assoc]

/-- **C6** witness: two bytes already committed to the ring when the
manual request is observed. -/
theorem claim_C6_manual_rollover_witness :
    ∃ n tail, 0 < n ∧
      (runWriter (RecConfig.mk false none none none true true 16 100) 2
          [WriterIter.mk true [7, 7] true WaitOutcome.object0]
          (initWriter (mkRing 4))).trace =
        (initWriter (mkRing 4)).trace ++
          [WriterEvent.closeSegment (initWriter (mkRing 4)).currentSegmentIndex,
            WriterEvent.openSegment ((initWriter (mkRing 4)).currentSegmentIndex + 1),
            WriterEvent.readChunk n,
            WriterEvent.writeChunk ((initWriter (mkRing 4)).currentSegmentIndex + 1) n] ++
          tail :=
  claim_C6_manual_rollover _ _ _ [] _ rfl rfl rfl rfl (by decide)

/-- **C6** counterexample to the claim as stated: a pending manual
request with an *empty* ring still opens the new segment file
immediately — the trace shows `openSegment 1` with no chunk ever read,
so the new segment file is created earlier than "on the next processed
chunk". -/
theorem claim_C6_counterexample :
    (runWriter (RecConfig.mk false none none none true true 16 100) 2
        [WriterIter.mk true [] true WaitOutcome.timeout]
        (initWriter (mkRing 4))).trace =
      [WriterEvent.openSegment 0, WriterEvent.closeSegment 0,
        WriterEvent.openSegment 1, WriterEvent.waitTimeout] ∧
    ((runWriter (RecConfig.mk false none none none true true 16 100) 2
        [WriterIter.mk true [] true WaitOutcome.timeout]
        (initWriter (mkRing 4))).trace.filter WriterEvent.isRead).length = 0 := by
  refine ⟨by decide, by decide⟩

end Recorder
